import Mathlib

/-!
Verification development for the zencfg typed-configuration library.

The embedding models the two core modules:
  * `config.py`   — `ConfigBase` (per-assignment validation, variant registry,
    default gathering, `to_dict`) and `parse_value_to_type`;
  * `from_dict.py` — the flat-to-nested normalizer (`update_nested_dict_from_flat`,
    `flat_dict_to_nested`) and the nested builder (`cfg_from_nested_dict`,
    `cfg_from_flat_dict`).

Python values are modelled by the inductive `Val`; declared field types by `Ty`
(the type vocabulary actually exercised by the library: ints, strings,
optionals, homogeneous lists and config classes).  A declared class hierarchy
is a list of `ClassDef` records; Python dictionaries are association lists with
insert-or-overwrite-in-place semantics (`insertAL`), matching dict update.
Pydantic's `TypeAdapter` validation (an external dependency of the repository)
is modelled by `validatePython` / `tryValidate` following pydantic v2 lax-mode
rules for this type vocabulary.
-/

/-- Declared field types: the vocabulary used by the library's configs. -/
inductive Ty where
  | tint : Ty
  | tstr : Ty
  | topt : Ty → Ty
  | tlist : Ty → Ty
  | tcfg : String → Ty
deriving DecidableEq, Repr

/-- Python runtime values: None, ints, strings, lists, dicts and
`ConfigBase` instances (concrete class name plus instance attributes,
in insertion order, as in `vars(self)`). -/
inductive Val where
  | vnone : Val
  | vint : Int → Val
  | vstr : String → Val
  | vlist : List Val → Val
  | vdict : List (String × Val) → Val
  | vinst : String → List (String × Val) → Val

/-- Error outcomes.  The Python code raises `ValueError`/`TypeError` with
formatted messages; each constructor corresponds to one distinct raise site
and carries that site's payload. -/
inductive Err where
  /-- config.py `parse_value_to_type`: coercion failure in strict mode
  (TypeError carrying the field path). -/
  | typeMismatch : String → Err
  /-- config.py `_get_subclass_by_name`: unknown variant name; carries the
  (lowercased) attempted name and the list of registered names. -/
  | unknownVariant : String → List String → Err
  /-- from_dict.py step 3: a supplied key is not a declared field; carries the
  full dotted path. -/
  | unknownKey : String → Err
  /-- from_dict.py step 4, strict mode: declared field with no default and no
  supplied value; carries the field name and the resolved class name. -/
  | missingRequired : String → String → Err
  /-- config.py `__init__`: required field absent from kwargs; carries the
  field name and its declared type. -/
  | missingInit : String → Ty → Err
  /-- from_dict.py: a ConfigBase-typed field received a value that is neither
  a string nor a dict (or the nested data is not a dict/str at all). -/
  | badConfigValue : String → Err
  /-- from_dict.py `update_nested_dict_from_flat`: a path prefix already holds
  a non-dict, non-string value. -/
  | collision : String → Err
  /-- The named class is not declared in the environment. -/
  | noClass : String → Err
  /-- Fuel exhaustion of the embedding (never reached on the inputs used). -/
  | fuel : Err
deriving DecidableEq, Repr

/-- Python dict lookup on an association list. -/
def lookupAL {β : Type} : List (String × β) → String → Option β
  | [], _ => none
  | (k1, v1) :: rest, k => if k1 = k then some v1 else lookupAL rest k

/-- Python dict assignment: overwrite in place if the key exists
(keeping its position), else append. -/
def insertAL {β : Type} : List (String × β) → String → β → List (String × β)
  | [], k, v => [(k, v)]
  | (k1, v1) :: rest, k, v =>
      if k1 = k then (k1, v) :: rest else (k1, v1) :: insertAL rest k v

/-- Python `key in dict`. -/
def hasKey {β : Type} (es : List (String × β)) (k : String) : Bool :=
  (lookupAL es k).isSome

/-- The keys of a dict, in order. -/
def keysAL {β : Type} (es : List (String × β)) : List String :=
  es.map Prod.fst

/-- from_dict.py `join_path`. -/
def joinPath (base field : String) : String :=
  if base = "" then field else base ++ "." ++ field

/-- Lowercasing, as used by `__init_subclass__` and `_get_subclass_by_name`. -/
def strLower (s : String) : String := String.mk (s.data.map Char.toLower)

/-- Python `str.startswith`, on the underlying character lists (the core
string primitives are avoided so that everything reduces definitionally). -/
def strStartsWith (s pfx : String) : Bool := pfx.data.isPrefixOf s.data

/-- Digit-string accumulation for `strToInt`. -/
def digitsValGo : List Char → Nat → Option Nat
  | [], acc => some acc
  | c :: cs, acc =>
      if c.isDigit then digitsValGo cs (acc * 10 + (c.toNat - 48)) else none

/-- A nonempty all-digit character list as a number. -/
def digitsVal : List Char → Option Nat
  | [] => none
  | c :: cs => digitsValGo (c :: cs) 0

def minusChar : Char := Char.ofNat 45

def dotChar : Char := Char.ofNat 46

/-- Integer parsing of a string (an optional minus sign followed by digits),
modelling both JSON integer literals and pydantic's lax string-to-int
coercion. -/
def strToInt (s : String) : Option Int :=
  match s.data with
  | [] => none
  | c :: rest =>
      if c = minusChar then (digitsVal rest).map (fun n => -(n : Int))
      else (digitsVal (c :: rest)).map (fun n => (n : Int))

/-- Splitting a character list on dots (Python `split(sep, 1)` applied
repeatedly yields exactly the full split). -/
def splitSegsChars : List Char → List Char → List String
  | [], acc => [String.mk acc.reverse]
  | c :: cs, acc =>
      if c = dotChar then String.mk acc.reverse :: splitSegsChars cs []
      else splitSegsChars cs (c :: acc)

/-- A declared config class: its Python name, its direct parent (none means a
direct child of `ConfigBase`, i.e. a category root), the fields annotated in
its own class body (`__annotations__`, in declaration order) and its own
class-level default values. -/
structure ClassDef where
  name : String
  parent : Option String
  own : List (String × Ty)
  defaults : List (String × Val)

/-- The variant name: `__init_subclass__` sets `_config_name` to the
lowercased class name at declaration time. -/
def cfgName (c : ClassDef) : String := strLower c.name

/-- A declared hierarchy: the classes in declaration order. -/
abbrev Env := List ClassDef

def findCls (env : Env) (n : String) : Option ClassDef :=
  env.find? (fun c => c.name = n)

/-- The method resolution order of a class (the class itself first, then its
parent chain), cut off by fuel to stay total on arbitrary environments. -/
def mroChain (env : Env) : Nat → String → List ClassDef
  | 0, _ => []
  | fuelN + 1, n =>
      match findCls env n with
      | none => []
      | some c =>
          match c.parent with
          | none => [c]
          | some p => c :: mroChain env fuelN p

def mro (env : Env) (n : String) : List ClassDef :=
  mroChain env (env.length + 1) n

/-- Python `issubclass(c1, c2)` for declared classes. -/
def isSubclass (env : Env) (c1 c2 : String) : Bool :=
  (mro env c1).any (fun c => c.name = c2)

/-- Python `isinstance(v, C)` for a config class `C`. -/
def isinstanceOf (env : Env) (v : Val) (c : String) : Bool :=
  match v with
  | .vinst cn _ => isSubclass env cn c
  | _ => false

/-- The category root of a class: the last element of its MRO chain
(the direct child of `ConfigBase`). -/
def categoryRootName (env : Env) (n : String) : Option String :=
  ((mro env n).getLast?).map (fun c => c.name)

/-- The live registry seen from class `n`.  `__init_subclass__` gives each
category root a fresh `_registry` dict and inserts every subsequently declared
descendant into its parent's `_registry`; since `_registry` is inherited by
reference, all descendants of one root share the root's dict.  Keys are
lowercased class names, inserted in declaration order, later declarations
overwriting earlier ones. -/
def registryOf (env : Env) (n : String) : List (String × ClassDef) :=
  match categoryRootName env n with
  | none => []
  | some r =>
      (env.filter (fun c =>
        c.parent.isSome && (categoryRootName env c.name == some r))).foldl
        (fun acc c => insertAL acc (cfgName c) c) []

/-- config.py `_get_subclass_by_name`: empty/absent name returns the class
itself; a name equal (after lowercasing) to the class's own `_config_name`
returns the class; otherwise the registry is consulted; an unknown name
raises, listing the registered names.  A non-string, non-None `_name` value
is a caller error (Python would crash on `.lower()`). -/
def getSubclassByName (env : Env) (cls : ClassDef) (nameVal : Option Val) :
    Except Err ClassDef :=
  match nameVal with
  | none => .ok cls
  | some .vnone => .ok cls
  | some (.vstr s) =>
      if s = "" then .ok cls
      else
        let s := strLower s
        if s = cfgName cls then .ok cls
        else
          match lookupAL (registryOf env cls.name) s with
          | some c => .ok c
          | none => .error (.unknownVariant s (keysAL (registryOf env cls.name)))
  | some _ => .error (.badConfigValue cls.name)

/-- Model of `self.__annotations__`: attribute lookup finds the annotations dict of the
first class along the MRO that declares any annotated field; `ConfigBase`
itself annotates `_config_name : str`. -/
def effTypes (env : Env) (n : String) : List (String × Ty) :=
  match (mro env n).find? (fun c => !c.own.isEmpty) with
  | some c => c.own
  | none => [("_config_name", Ty.tstr)]

/-- Model of `typing.get_type_hints(cls)`: the annotations of the full MRO merged
base-first (derived classes override), starting from `ConfigBase`'s own
`_config_name : str`. -/
def typeHintsOf (env : Env) (n : String) : List (String × Ty) :=
  ((mro env n).reverse).foldl
    (fun acc c => c.own.foldl (fun a kv => insertAL a kv.1 kv.2) acc)
    [("_config_name", Ty.tstr)]

/-- config.py `gather_defaults`: walk the MRO root-first collecting every
non-underscore, non-callable class attribute; derived classes override. -/
def gatherDefaults (env : Env) (n : String) : List (String × Val) :=
  ((mro env n).reverse).foldl
    (fun acc c => c.defaults.foldl
      (fun a kv => if strStartsWith kv.1 ("_") then a else insertAL a kv.1 kv.2) acc)
    []

/-- from_dict.py step 2: defaults gathered through `dir(actual_cls)` /
`getattr`, which resolves child-first and includes single-underscore
attributes, in particular `_config_name` (the lowercased class name).
The `_registry` dict is also collected by the code but can never reach an
instance (it is not a type hint, and the final defaults loop skips every
class attribute), so it is omitted here. -/
def builderDefaults (env : Env) (cls : ClassDef) : List (String × Val) :=
  ((mro env cls.name).reverse).foldl
    (fun acc c => c.defaults.foldl (fun a kv => insertAL a kv.1 kv.2) acc)
    [("_config_name", Val.vstr (cfgName cls))]

/-- config.py `is_configbase_type`: a class, or a Union one of whose members
is a `ConfigBase` subclass.  `Optional[T]` is `Union[T, None]`. -/
def isCfgTy : Ty → Bool
  | .tcfg _ => true
  | .topt t => isCfgTy t
  | _ => false

/-- from_dict.py `extract_configbase_member`: the config class mentioned by a
(possibly optional) config type. -/
def cfgOf : Ty → Option String
  | .tcfg c => some c
  | .topt t => cfgOf t
  | _ => none

/-- Option-valued elementwise map (used to model pydantic validating a list
element by element). -/
def mapOpt (g : Val → Option Val) : List Val → Option (List Val)
  | [] => some []
  | x :: xs =>
      match g x with
      | none => none
      | some w => (mapOpt g xs).map (fun ws => w :: ws)

/-- Pydantic v2 `TypeAdapter(t).validate_python` in lax mode, restricted to
this type vocabulary: ints accept ints and integer-literal strings; strings
accept exactly strings; optionals accept None or the inner type; lists
validate elementwise (plain strings are not parsed into lists here); an
arbitrary (config) class validates by `isinstance`. -/
def validatePython (env : Env) : Ty → Val → Option Val
  | .tint, .vint n => some (.vint n)
  | .tint, .vstr s => (strToInt s).map Val.vint
  | .tint, _ => none
  | .tstr, .vstr s => some (.vstr s)
  | .tstr, _ => none
  | .topt _, .vnone => some .vnone
  | .topt t, v => validatePython env t v
  | .tlist t, .vlist xs => (mapOpt (validatePython env t) xs).map Val.vlist
  | .tlist _, _ => none
  | .tcfg c, v => if isinstanceOf env v c then some v else none

/-- JSON parsing of a bare scalar string, as `validate_json` would see it:
only integer literals are relevant for this vocabulary (non-JSON strings such
as bare words fail and fall through to `validate_python`). -/
def jparse (s : String) : Option Val := (strToInt s).map Val.vint

/-- config.py `parse_value_to_type`, adapter branch: for a string value first
try `validate_json` (parse as JSON, then validate the parsed value), on any
failure fall back to `validate_python` on the raw value. -/
def tryValidate (env : Env) (t : Ty) (v : Val) : Option Val :=
  match v with
  | .vstr s =>
      match (jparse s).bind (validatePython env t) with
      | some w => some w
      | none => validatePython env t v
  | _ => validatePython env t v

/-- The tail of config.py `parse_value_to_type`: adapter validation; on
`ValidationError`, strict mode raises a `TypeError` carrying the path, and
non-strict mode returns the raw value. -/
def adapterStep (env : Env) (strict : Bool) (path : String) (t : Ty) (v : Val) :
    Except Err Val :=
  match tryValidate env t v with
  | some w => .ok w
  | none => if strict then .error (.typeMismatch path) else .ok v

/-- Except-valued elementwise map carrying the element index (used for the
per-element recursion of the list-of-config branch). -/
def mapExceptIdx (g : Nat → Val → Except Err Val) : Nat → List Val →
    Except Err (List Val)
  | _, [] => .ok []
  | i, x :: xs =>
      match g i x with
      | .error e => .error e
      | .ok w => (mapExceptIdx g (i + 1) xs).map (fun ws => w :: ws)

/-- config.py `parse_value_to_type`:
  * `List[C]` with `C` a config class: a list whose elements are all
    instances of `C` is returned unchanged (the same object); otherwise each
    element is parsed recursively with an indexed path (a non-list value
    cannot be enumerated and fails);
  * a config type: instances pass through; in strict mode anything else
    raises, otherwise the raw value is returned (for `Union`/`Optional` types
    containing a config member, Python's `isinstance` against a subscripted
    generic raises unconditionally);
  * everything else goes to the pydantic adapter (`adapterStep`). -/
def parseVal (env : Env) (strict : Bool) : Ty → String → Val → Except Err Val
  | .tlist te, path, v =>
      if isCfgTy te then
        match cfgOf te, v with
        | some c, .vlist xs =>
            if xs.all (fun x => isinstanceOf env x c) then .ok (.vlist xs)
            else
              (mapExceptIdx
                (fun i x => parseVal env strict te
                  (path ++ "[" ++ toString i ++ "]") x) 0 xs).map Val.vlist
        | _, _ => .error (.typeMismatch path)
      else adapterStep env strict path (.tlist te) v
  | .tcfg c, path, v =>
      if isinstanceOf env v c then .ok v
      else if strict then .error (.typeMismatch path)
      else .ok v
  | .topt te, path, v =>
      if isCfgTy te then .error (.typeMismatch path)
      else adapterStep env strict path (.topt te) v
  | t, path, v => adapterStep env strict path t v

/-- config.py `ConfigBase.__setattr__`: when the attribute appears in
`self.__annotations__` (the nearest annotations dict along the MRO), the
value is validated with `parse_value_to_type(..., strict=True)` with path
`ClassName.field`; otherwise the raw value is stored. -/
def setAttrI (env : Env) (clsName : String) (fs : List (String × Val))
    (k : String) (v : Val) : Except Err (List (String × Val)) :=
  match lookupAL (effTypes env clsName) k with
  | some t =>
      (parseVal env true t (clsName ++ "." ++ k) v).map (fun w => insertAL fs k w)
  | none => .ok (insertAL fs k v)

/-- Sequential `setattr` of a list of key/value pairs. -/
def setAttrs (env : Env) (clsName : String) :
    List (String × Val) → List (String × Val) → Except Err (List (String × Val))
  | fs, [] => .ok fs
  | fs, (k, v) :: rest =>
      match setAttrI env clsName fs k v with
      | .error e => .error e
      | .ok fs2 => setAttrs env clsName fs2 rest

/-- config.py `ConfigBase.__new__` + `__init__`: `__new__` switches to the
subclass named by a truthy `_config_name` kwarg; `__init__` gathers defaults
over the MRO, raises for every field of `self.__annotations__` that has
neither a default nor a kwarg (naming the field and its declared type), then
assigns all defaults and then all kwargs through `__setattr__`. -/
def initCfg (env : Env) (cls : ClassDef) (kwargs : List (String × Val)) :
    Except Err Val :=
  match
    ((match lookupAL kwargs ("_config_name") with
     | some (.vstr s) => if s = "" then .ok cls else getSubclassByName env cls (some (.vstr s))
     | some .vnone => .ok cls
     | some (.vint n) => if n = 0 then .ok cls else .error (.badConfigValue cls.name)
     | some _ => .error (.badConfigValue cls.name)
     | none => .ok cls) : Except Err ClassDef) with
  | .error e => .error e
  | .ok actual =>
      let defs := gatherDefaults env actual.name
      match (effTypes env actual.name).find?
          (fun kv => !hasKey defs kv.1 && !hasKey kwargs kv.1) with
      | some kv => .error (.missingInit kv.1 kv.2)
      | none =>
          match setAttrs env actual.name [] defs with
          | .error e => .error e
          | .ok fs =>
              match setAttrs env actual.name fs kwargs with
              | .error e => .error e
              | .ok fs2 => .ok (.vinst actual.name fs2)

/-- from_dict.py `cfg_from_nested_dict`, entry normalization: a bare string is
treated as a variant name; anything but a dict or string cannot be processed
(Python would crash on `.get`). -/
def toEntries (path : String) : Val → Except Err (List (String × Val))
  | .vstr s => .ok [("_name", Val.vstr s)]
  | .vdict es => .ok es
  | _ => .error (.badConfigValue path)

/-- One iteration of from_dict.py step 4 (the loop over `type_hints`):
  * field present and of config type: recurse on a string (as
    `{"_name": s}`) or on a dict; anything else is a fatal `TypeError`;
  * field present but not of config type: nothing is stored here (the raw
    value is carried through later, lines 193-195);
  * field absent with a class default: the default object is stored;
  * field absent with no default: strict mode raises
    `missing required field`; non-strict auto-instantiates a config-typed
    field's class with no arguments, and stores `None` otherwise. -/
def buildFieldOne (env : Env) (strict : Bool)
    (recur : String → String → Val → Except Err Val)
    (path clsA : String) (d defs : List (String × Val))
    (f : String) (t : Ty) (acc : List (String × Val)) :
    Except Err (List (String × Val)) :=
  match lookupAL d f with
  | some rv =>
      if isCfgTy t then
        match cfgOf t with
        | some cb =>
            match rv with
            | .vstr s =>
                (recur (joinPath path f) cb (.vdict [("_name", Val.vstr s)])).map
                  (fun r => insertAL acc f r)
            | .vdict es =>
                (recur (joinPath path f) cb (.vdict es)).map
                  (fun r => insertAL acc f r)
            | _ => .error (.badConfigValue (joinPath path f))
        | none => .error (.badConfigValue (joinPath path f))
      else .ok acc
  | none =>
      match lookupAL defs f with
      | some dv => .ok (insertAL acc f dv)
      | none =>
          if strict then .error (.missingRequired f clsA)
          else if isCfgTy t then
            match cfgOf t with
            | some cb =>
                match findCls env cb with
                | some cbc => (initCfg env cbc []).map (fun r => insertAL acc f r)
                | none => .error (.noClass cb)
            | none => .error (.badConfigValue (joinPath path f))
          else .ok (insertAL acc f .vnone)

/-- The full loop of from_dict.py step 4 over the type hints, threading the
`init_values` accumulator; the first failure propagates. -/
def buildFields (env : Env) (strict : Bool)
    (recur : String → String → Val → Except Err Val)
    (path clsA : String) (d defs : List (String × Val)) :
    List (String × Ty) → List (String × Val) → Except Err (List (String × Val))
  | [], acc => .ok acc
  | (f, t) :: rest, acc =>
      match buildFieldOne env strict recur path clsA d defs f t acc with
      | .error e => .error e
      | .ok acc2 => buildFields env strict recur path clsA d defs rest acc2

/-- from_dict.py lines 193-195: every supplied entry not already in
`init_values` and different from `_name` is carried through raw. -/
def carryExtras (d initVals : List (String × Val)) : List (String × Val) :=
  d.foldl (fun acc kv =>
    if hasKey acc kv.1 || kv.1 == "_name" then acc else insertAL acc kv.1 kv.2)
    initVals

/-- from_dict.py lines 201-203: `setattr` each default whose key the instance
does not already have.  `hasattr` also finds class attributes, and every
gathered default is a class attribute, so this loop never assigns anything;
it is kept for fidelity with the `hasattr` check made explicit. -/
def finalDefaultsLoop (defs fs : List (String × Val)) : List (String × Val) :=
  defs.foldl (fun acc kv =>
    if hasKey acc kv.1 || hasKey defs kv.1 then acc else insertAL acc kv.1 kv.2)
    fs

/-- from_dict.py `cfg_from_nested_dict`: normalize the entry, resolve the
concrete variant from `_name`, reject unknown keys (fatal in both modes),
build `init_values` (step 4), carry raw extras through, then materialize the
instance with `__new__` (bypassing `__init__`) and assign every value through
`__setattr__`.  Structural recursion on fuel; the recursion depth is bounded
by the nesting depth of the input. -/
def cfgFromNested (env : Env) (strict : Bool) :
    Nat → String → String → Val → Except Err Val
  | 0, _, _, _ => .error Err.fuel
  | fuelN + 1, path, clsName, nd =>
      match toEntries path nd with
      | .error e => .error e
      | .ok d =>
          match findCls env clsName with
          | none => .error (.noClass clsName)
          | some cls =>
              match getSubclassByName env cls (lookupAL d ("_name")) with
              | .error e => .error e
              | .ok actual =>
                  let hints := typeHintsOf env actual.name
                  match d.find?
                      (fun kv => !hasKey hints kv.1 && !(kv.1 == "_name")) with
                  | some kv => .error (.unknownKey (joinPath path kv.1))
                  | none =>
                      let defs := builderDefaults env actual
                      match buildFields env strict
                          (fun p c v => cfgFromNested env strict fuelN p c v)
                          path actual.name d defs hints [] with
                      | .error e => .error e
                      | .ok initVals =>
                          match setAttrs env actual.name []
                              (carryExtras d initVals) with
                          | .error e => .error e
                          | .ok fs =>
                              .ok (.vinst actual.name (finalDefaultsLoop defs fs))

/-- from_dict.py `update_nested_dict_from_flat`, on the segment list produced
by splitting the dotted key (repeated `key.split(sep, 1)`): descend creating
nested dicts, promoting a string already stored at a prefix to
`{"_name": that string}`, failing on any other non-dict prefix value; the
terminal segment is assigned directly. -/
def updateNestedSegs :
    List (String × Val) → List String → Val → Except Err (List (String × Val))
  | d, [], _ => .ok d
  | d, [k], v => .ok (insertAL d k v)
  | d, k :: seg1 :: rest, v =>
      let d2 :=
        match lookupAL d k with
        | some (.vstr s) => insertAL d k (.vdict [("_name", Val.vstr s)])
        | _ => d
      match lookupAL d2 k with
      | none =>
          match updateNestedSegs [] (seg1 :: rest) v with
          | .error e => .error e
          | .ok sub => .ok (insertAL d2 k (.vdict sub))
      | some (.vdict sub) =>
          match updateNestedSegs sub (seg1 :: rest) v with
          | .error e => .error e
          | .ok sub2 => .ok (insertAL d2 k (.vdict sub2))
      | some _ => .error (.collision k)

/-- Splitting a dotted key into its segments (Python `split(sep, 1)` applied
repeatedly yields exactly the full split). -/
def splitKey (k : String) : List String := splitSegsChars k.data []

/-- from_dict.py `flat_dict_to_nested`: fold the entries, in the order in
which they arrive, into a nested dict. -/
def flatDictToNested (flat : List (String × Val)) :
    Except Err (List (String × Val)) :=
  flat.foldlM (fun d kv => updateNestedSegs d (splitKey kv.1) kv.2) []

/-- from_dict.py `cfg_from_flat_dict`: normalize, then build. -/
def cfgFromFlat (env : Env) (strict : Bool) (fuelN : Nat) (clsName : String)
    (flat : List (String × Val)) : Except Err Val :=
  match flatDictToNested flat with
  | .error e => .error e
  | .ok nested => cfgFromNested env strict fuelN ("") clsName (.vdict nested)

/-- The `Bunch` conversion applied by `to_dict`'s return: nested dicts are
converted recursively, and the strings `None`/`none` become Python `None`
(`bunch.py`, `Bunch.__init__`). -/
def bunchVal : Nat → Val → Val
  | 0, v => v
  | fuelN + 1, v =>
      match v with
      | .vdict es => .vdict (es.map (fun kv => (kv.1, bunchVal fuelN kv.2)))
      | .vstr s => if s = "None" || s = "none" then .vnone else .vstr s
      | x => x

/-- config.py `to_dict(flatten=True)` over an instance attribute dict:
sub-config values are flattened recursively and re-keyed with a dotted
prefix; everything else is stored under its (possibly prefixed) name.
Attributes starting with a double underscore are skipped (instance
attributes never are in practice); values are never callable. -/
def toDictFlatGo : Nat → List (String × Val) → String → List (String × Val)
  | 0, _, _ => []
  | fuelN + 1, fs, parentKey =>
      fs.foldl (fun result kv =>
        if strStartsWith kv.1 ("__") then result
        else
          match kv.2 with
          | .vinst _ f2 =>
              (toDictFlatGo fuelN f2 ("")).foldl
                (fun r kv2 =>
                  insertAL r (joinPath parentKey (kv.1 ++ "." ++ kv2.1)) kv2.2)
                result
          | v => insertAL result (joinPath parentKey kv.1) v) []

/-- config.py `ConfigBase.to_dict(flatten=True)`: flatten the instance
attributes, then wrap the result in a `Bunch` (which converts values). -/
def toDictFlatten (fuelN : Nat) (inst : Val) : List (String × Val) :=
  match inst with
  | .vinst _ fs =>
      (toDictFlatGo fuelN fs ("")).map (fun kv => (kv.1, bunchVal fuelN kv.2))
  | _ => []

/-- Order-insensitive fieldwise comparison of two attribute dicts given an
element comparison. -/
def dictFieldwise (eq : Val → Val → Bool) (d1 d2 : List (String × Val)) : Bool :=
  d1.all (fun kv => hasKey d2 kv.1) && d2.all (fun kv => hasKey d1 kv.1) &&
  d1.all (fun kv =>
    match lookupAL d2 kv.1 with
    | some w => eq kv.2 w
    | none => false)

/-- Fieldwise equality of values: instances compare by class and by fieldwise
equality of their attributes (key order irrelevant, as Python dict equality);
lists compare pointwise. -/
def vEqF : Nat → Val → Val → Bool
  | 0, _, _ => false
  | fuelN + 1, a, b =>
      match a, b with
      | .vnone, .vnone => true
      | .vint x, .vint y => x == y
      | .vstr x, .vstr y => x == y
      | .vlist xs, .vlist ys =>
          xs.length == ys.length &&
          (xs.zip ys).all (fun p => vEqF fuelN p.1 p.2)
      | .vdict d1, .vdict d2 => dictFieldwise (vEqF fuelN) d1 d2
      | .vinst c1 f1, .vinst c2 f2 => c1 == c2 && dictFieldwise (vEqF fuelN) f1 f2
      | _, _ => false

/-- from_dict.py `parse_value_to_type` (that module's own version, with
`arbitrary_types_allowed`): `validate_python` only; on `ValidationError`,
strict mode raises a `TypeError` and non-strict mode emits a warning and
returns the raw value unchanged.  The Boolean in the result records whether
the warning branch was taken.  This function is defined (and unit-tested) by
the module but never called by `cfg_from_nested_dict`. -/
def parseValFD (env : Env) (strict : Bool) (path : String) (t : Ty) (v : Val) :
    Except Err (Val × Bool) :=
  match validatePython env t v with
  | some w => .ok (w, false)
  | none => if strict then .error (.typeMismatch path) else .ok (v, true)

/-- Semantic satisfaction of a declared type by a stored value (the spec's
"the stored value satisfies the field's declared type"). -/
def typeSat (env : Env) : Ty → Val → Bool
  | .tint, .vint _ => true
  | .tstr, .vstr _ => true
  | .topt _, .vnone => true
  | .topt t, v => typeSat env t v
  | .tlist t, .vlist xs => xs.all (typeSat env t)
  | .tcfg c, v => isinstanceOf env v c
  | _, _ => false

/-! ### A concrete declared hierarchy

Mirrors the library's own test classes (`ModelConfig`/`DiT`/`Unet`, a
composite `Cfg`) plus minimal classes exercising each behavior. -/

def mcCD : ClassDef := ⟨"ModelConfig", none, [("version", Ty.tstr)], [("version", Val.vstr ("0.1.0"))]⟩
def ditCD : ClassDef := ⟨"DiT", some ("ModelConfig"), [("layers", Ty.tint)], [("layers", Val.vint 16)]⟩
def unetCD : ClassDef := ⟨"Unet", some ("ModelConfig"), [("conv", Ty.tstr)], [("conv", Val.vstr ("DISCO"))]⟩
def cfgCD : ClassDef := ⟨"Cfg", none, [("model", Ty.tcfg ("ModelConfig"))], []⟩
def outerCD : ClassDef := ⟨"Outer", none, [("sub", Ty.tcfg ("Leaf"))], []⟩
def leafCD : ClassDef := ⟨"Leaf", none, [("x", Ty.tint)], [("x", Val.vint 1)]⟩
def reqIntCD : ClassDef := ⟨"ReqInt", none, [("n", Ty.tint)], []⟩
def optCfgCD : ClassDef := ⟨"OptCfg", none, [("m", Ty.topt Ty.tint)], []⟩
def hasSubCD : ClassDef := ⟨"HasSub", none, [("sub2", Ty.tcfg ("Leaf"))], []⟩
def aCD : ClassDef := ⟨"A", none, [("x", Ty.tint)], []⟩
def bCD : ClassDef := ⟨"B", some ("A"), [("y", Ty.tint)], [("y", Val.vint 0)]⟩
def coerceCD : ClassDef := ⟨"CoerceCfg", none, [("n", Ty.tint)], [("n", Val.vint 1)]⟩

def envMain : Env :=
  [mcCD, ditCD, unetCD, cfgCD, outerCD, leafCD, reqIntCD, optCfgCD, hasSubCD,
   aCD, bCD, coerceCD]

/-- The instance the builder produces for
`cfg_from_nested_dict(Cfg, {"model": {"_name": "dit"}}, strict=True)`:
the `model` field holds a `DiT` (a proper variant of the declared
`ModelConfig`), and the builder also sets the `_config_name` instance
attribute from the class defaults. -/
def builtCfgDit : Val :=
  .vinst ("Cfg")
    [("_config_name", .vstr ("cfg")),
     ("model", .vinst ("DiT")
        [("_config_name", .vstr ("dit")),
         ("version", .vstr ("0.1.0")),
         ("layers", .vint 16)])]

/-- Builder output for `cfg_from_nested_dict(Outer, {"sub": {"x": 2}})`,
where the nested config's concrete class equals the declared field class. -/
def builtOuter : Val :=
  .vinst ("Outer")
    [("_config_name", .vstr ("outer")),
     ("sub", .vinst ("Leaf") [("_config_name", .vstr ("leaf")), ("x", .vint 2)])]

/-- What `cfg_from_flat_dict(Outer, to_dict(flatten=True))` rebuilds: the same
fields, with `_config_name` re-inserted last (carried through raw) instead of
first. -/
def rebuiltOuter : Val :=
  .vinst ("Outer")
    [("sub", .vinst ("Leaf") [("_config_name", .vstr ("leaf")), ("x", .vint 2)]),
     ("_config_name", .vstr ("outer"))]

/-- The shallow bare-variant-name entry of the spec's normalizer example. -/
def shEntry : String × Val := ("model", Val.vstr ("dit"))

/-- The deeper field-override entry of the spec's normalizer example. -/
def dpEntry : String × Val := ("model.layers", Val.vint 8)

/-- C8.  Collision-as-promotion: normalizing the flat mapping
`{"model": "dit", "model.layers": 8}` (entries in that order) yields exactly
`{"model": {"_name": "dit", "layers": 8}}`: the earlier bare string value is
promoted to a nested map under `_name` and the deeper field is merged in. -/
theorem C8_collision_promotion :
    flatDictToNested [shEntry, dpEntry] =
      .ok [("model", Val.vdict [("_name", Val.vstr ("dit")), ("layers", Val.vint 8)])] :=
  rfl

/-- C7, counterexample.  The normalizer does not process entries by
increasing key depth: it folds them in arrival order.  With the deeper entry
first, the later shallow bare-variant entry overwrites the nested map, so the
two arrival orders of the same entries produce different nested mappings —
refuting order-independence. -/
theorem C7_not_depth_ordered :
    flatDictToNested [dpEntry, shEntry] = .ok [("model", Val.vstr ("dit"))] ∧
    flatDictToNested [shEntry, dpEntry] =
      .ok [("model", Val.vdict [("_name", Val.vstr ("dit")), ("layers", Val.vint 8)])] ∧
    flatDictToNested [dpEntry, shEntry] ≠ flatDictToNested [shEntry, dpEntry] := by
  refine ⟨rfl, rfl, ?_⟩
  have hA : flatDictToNested [dpEntry, shEntry] = .ok [("model", Val.vstr ("dit"))] := rfl
  have hB : flatDictToNested [shEntry, dpEntry] =
      .ok [("model", Val.vdict [("_name", Val.vstr ("dit")), ("layers", Val.vint 8)])] := rfl
  intro h
  rw [hA, hB] at h
  simp only [Except.ok.injEq, List.cons.injEq, Prod.mk.injEq] at h
  exact Val.noConfusion h.1.2

/-- C7, amended.  The normalizer folds the flat entries in the order in which
they arrive (not sorted by depth): the first entry is applied to the empty
dict and the remainder are layered on top, so a shallow bare-variant-name
entry is promoted only when it arrives before its deeper overrides; when it
arrives after them it overwrites the nested map. -/
theorem C7_arrival_order :
    (∀ (e : String × Val) (rest : List (String × Val)),
      flatDictToNested (e :: rest) =
        match updateNestedSegs [] (splitKey e.1) e.2 with
        | .error er => .error er
        | .ok d0 =>
            rest.foldlM (fun d kv => updateNestedSegs d (splitKey kv.1) kv.2) d0) ∧
    flatDictToNested [shEntry, dpEntry] =
      .ok [("model", Val.vdict [("_name", Val.vstr ("dit")), ("layers", Val.vint 8)])] ∧
    flatDictToNested [dpEntry, shEntry] = .ok [("model", Val.vstr ("dit"))] := by
  refine ⟨?_, rfl, rfl⟩
  intro e rest
  have hstep : flatDictToNested (e :: rest) =
      (updateNestedSegs [] (splitKey e.1) e.2) >>= fun d0 =>
        rest.foldlM (fun d kv => updateNestedSegs d (splitKey kv.1) kv.2) d0 := rfl
  rw [hstep]
  cases h : updateNestedSegs [] (splitKey e.1) e.2 with
  | error er => rfl
  | ok d0 => rfl

/-- C1, counterexample.  Round-trip fails on a builder-produced instance
whose `model` field holds a variant (`DiT`) of its declared class
(`ModelConfig`): `to_dict(flatten=True)` emits no `_name` key (only the
`_config_name` instance attribute, which `cfg_from_nested_dict` does not use
for variant resolution), so the rebuild resolves `model` to `ModelConfig` and
fails with an unknown-key error on the variant-only field `layers` — under
both strictness modes — instead of returning a field-wise equal instance. -/
theorem C1_roundtrip_fails_on_variant :
    cfgFromNested envMain true 10 ("") "Cfg"
      (.vdict [("model", .vdict [("_name", .vstr ("dit"))])]) = .ok builtCfgDit ∧
    toDictFlatten 20 builtCfgDit =
      [("_config_name", .vstr ("cfg")), ("model._config_name", .vstr ("dit")),
       ("model.version", .vstr ("0.1.0")), ("model.layers", .vint 16)] ∧
    cfgFromFlat envMain false 10 ("Cfg") (toDictFlatten 20 builtCfgDit) =
      .error (.unknownKey ("model.layers")) ∧
    cfgFromFlat envMain true 10 ("Cfg") (toDictFlatten 20 builtCfgDit) =
      .error (.unknownKey ("model.layers")) :=
  ⟨rfl, rfl, rfl, rfl⟩

/-- The builder output for `cfg_from_nested_dict(Unet, {"conv": "None"})`:
a variant-free instance (its concrete class is the class it was built as)
whose `str` field holds the literal string `None`. -/
def builtUnetNone : Val :=
  .vinst ("Unet")
    [("_config_name", .vstr ("unet")), ("version", .vstr ("0.1.0")),
     ("conv", .vstr ("None"))]

/-- C1, amended.  `to_dict(flatten=True)` is not a left-inverse of
`cfg_from_flat_dict` on builder-produced instances; two independent losses
break the round-trip.  Besides the variant-name loss of the counterexample,
`to_dict` wraps its result in a `Bunch`, which converts the leaf strings
`None`/`none` to Python `None` (bunch.py lines 47-48), so even the
variant-free instance `builtUnetNone` — whose concrete class equals its
declared class — flattens with `conv = None` and fails the rebuild with a
type-mismatch error at `Unet.conv` under both strictness modes (the
assignment hook re-validates with hard-coded `strict=True`).  When neither
loss occurs the rebuild can succeed field-wise equal, as the nested
`Outer`/`Leaf` instance shows (the only difference being attribute insertion
order, which Python dict equality ignores). -/
theorem C1_roundtrip_not_left_inverse :
    cfgFromNested envMain true 10 ("") ("Unet")
      (.vdict [("conv", .vstr ("None"))]) = .ok builtUnetNone ∧
    toDictFlatten 20 builtUnetNone =
      [("_config_name", .vstr ("unet")), ("version", .vstr ("0.1.0")),
       ("conv", .vnone)] ∧
    cfgFromFlat envMain false 10 ("Unet") (toDictFlatten 20 builtUnetNone) =
      .error (.typeMismatch ("Unet.conv")) ∧
    cfgFromFlat envMain true 10 ("Unet") (toDictFlatten 20 builtUnetNone) =
      .error (.typeMismatch ("Unet.conv")) ∧
    cfgFromNested envMain true 10 ("") ("Outer")
      (.vdict [("sub", .vdict [("x", .vint 2)])]) = .ok builtOuter ∧
    cfgFromFlat envMain true 10 ("Outer") (toDictFlatten 20 builtOuter) =
      .ok rebuiltOuter ∧
    cfgFromFlat envMain false 10 ("Outer") (toDictFlatten 20 builtOuter) =
      .ok rebuiltOuter ∧
    vEqF 20 rebuiltOuter builtOuter = true :=
  ⟨rfl, rfl, rfl, rfl, rfl, rfl, rfl, rfl⟩

/-- C2.  In a non-strict build, a value that fails coercion is not recovered
with a warning: the builder stores raw values through `__setattr__`, which
validates with `strict=True` unconditionally, so
`cfg_from_flat_dict(CoerceCfg, {"n": "hello"}, strict=False)` raises a
type-mismatch error instead of warning and storing the raw value.  The
module's own `parse_value_to_type` (modelled by `parseValFD`) implements
exactly the documented warn-and-pass-through behavior, but the builder never
calls it. -/
theorem C2_nonstrict_coercion_raises :
    cfgFromFlat envMain false 10 ("CoerceCfg") [("n", .vstr ("hello"))] =
      .error (.typeMismatch ("CoerceCfg.n")) ∧
    parseValFD envMain false ("n") Ty.tint (.vstr ("hello")) =
      .ok (.vstr ("hello"), true) :=
  ⟨rfl, rfl⟩

/-- C3, counterexample.  Building a class with a required `int` field under
`strict=False` does not succeed with the field set to `None`: the builder
does put `None` in `init_values`, but the assignment path re-validates with
`strict=True` and `None` fails coercion to `int`, so the build raises a
type-mismatch error. -/
theorem C3_nonstrict_none_rejected :
    cfgFromNested envMain false 10 ("") "ReqInt" (.vdict []) =
      .error (.typeMismatch ("ReqInt.n")) :=
  rfl

/-- C4, counterexample.  A field (`x : int`) declared on an ancestor (`A`) of
the concrete class (`B`) is not validated on assignment: `self.__annotations__`
resolves to `B`'s own annotations (which only contain `y`), so the build
succeeds — even with `strict=True` — storing the raw string under `x`, and
the stored value does not satisfy the declared type. -/
theorem C4_ancestor_field_unvalidated :
    cfgFromNested envMain true 10 ("") "B"
      (.vdict [("x", .vstr ("hello")), ("y", .vint 1)]) =
      .ok (.vinst ("B")
        [("_config_name", .vstr ("b")), ("x", .vstr ("hello")), ("y", .vint 1)]) ∧
    lookupAL (typeHintsOf envMain ("B")) ("x") = some Ty.tint ∧
    lookupAL (effTypes envMain ("B")) ("x") = none ∧
    typeSat envMain Ty.tint (.vstr ("hello")) = false :=
  ⟨rfl, rfl, rfl, rfl⟩

/-! ### Helper lemmas -/

theorem lookupAL_insertAL_self {β : Type} (es : List (String × β)) (k : String)
    (v : β) : lookupAL (insertAL es k v) k = some v := by
  induction es with
  | nil => simp [insertAL, lookupAL]
  | cons kv rest ih =>
      obtain ⟨k1, v1⟩ := kv
      by_cases hk : k1 = k
      · simp [insertAL, hk, lookupAL]
      · simp [insertAL, hk, lookupAL, ih]

theorem hasKey_fst_of_mem {β : Type} {es : List (String × β)} {kv : String × β}
    (h : kv ∈ es) : hasKey es kv.1 = true := by
  induction es with
  | nil => cases h
  | cons kv1 rest ih =>
      obtain ⟨k1, v1⟩ := kv1
      rcases List.mem_cons.mp h with heq | hmem
      · subst heq; simp [hasKey, lookupAL]
      · by_cases hk : k1 = kv.1
        · simp [hasKey, lookupAL, hk]
        · simpa [hasKey, lookupAL, hk] using ih hmem

/-- C5.  Unknown keys are fatal regardless of strictness: whenever the
variant resolves and some supplied key is neither `_name` nor a declared
field (type hint) of the resolved class, the build fails — for every
strictness flag — with an unknown-field error carrying the full dotted path
of such a key. -/
theorem C5_unknown_key_fatal (env : Env) (strict : Bool) (fuelN : Nat)
    (path clsName : String) (d : List (String × Val)) (cls actual : ClassDef)
    (hc : findCls env clsName = some cls)
    (hr : getSubclassByName env cls (lookupAL d ("_name")) = .ok actual)
    (hex : ∃ kv, kv ∈ d ∧ hasKey (typeHintsOf env actual.name) kv.1 = false ∧
      kv.1 ≠ "_name") :
    ∃ k, hasKey d k = true ∧ hasKey (typeHintsOf env actual.name) k = false ∧
      k ≠ "_name" ∧
      cfgFromNested env strict (fuelN + 1) path clsName (.vdict d) =
        .error (.unknownKey (joinPath path k)) := by
  obtain ⟨kv, hmem, hkh, hkn⟩ := hex
  have hfind : (d.find?
      (fun kv => !hasKey (typeHintsOf env actual.name) kv.1 &&
        !(kv.1 == "_name"))).isSome := by
    rw [List.find?_isSome]
    exact ⟨kv, hmem, by simp [hkh, hkn]⟩
  obtain ⟨kv0, hkv0⟩ := Option.isSome_iff_exists.mp hfind
  have hp := List.find?_some hkv0
  have hm0 := List.mem_of_find?_eq_some hkv0
  simp only [Bool.and_eq_true, Bool.not_eq_true'] at hp
  refine ⟨kv0.1, hasKey_fst_of_mem hm0, hp.1, by simpa using hp.2, ?_⟩
  simp [cfgFromNested, toEntries, hc, hr, hkv0]

/-- C5, witness. -/
theorem C5_unknown_key_fatal_witness :
    ∃ k, hasKey [(("nope" : String), Val.vint 1)] k = true ∧
      hasKey (typeHintsOf envMain cfgCD.name) k = false ∧ k ≠ "_name" ∧
      cfgFromNested envMain true 10 ("") "Cfg" (.vdict [("nope", Val.vint 1)]) =
        .error (.unknownKey (joinPath ("") k)) :=
  C5_unknown_key_fatal envMain true 9 ("") "Cfg" [("nope", Val.vint 1)] cfgCD cfgCD
    rfl rfl ⟨("nope", Val.vint 1), List.Mem.head _, rfl, by decide⟩

theorem buildFields_error_of_required (env : Env)
    (recur : String → String → Val → Except Err Val)
    (path clsA : String) (d defs : List (String × Val)) (f : String) (t : Ty) :
    ∀ (hints : List (String × Ty)) (acc : List (String × Val)),
      (f, t) ∈ hints → lookupAL d f = none → lookupAL defs f = none →
      ∃ e, buildFields env true recur path clsA d defs hints acc = .error e := by
  intro hints
  induction hints with
  | nil => intro acc hmem _ _; cases hmem
  | cons ft rest ih =>
      intro acc hmem hd hdef
      rcases List.mem_cons.mp hmem with heq | hmemr
      · cases heq
        exact ⟨.missingRequired f clsA, by
          simp [buildFields, buildFieldOne, hd, hdef]⟩
      · obtain ⟨g, tg⟩ := ft
        cases h1 : buildFieldOne env true recur path clsA d defs g tg acc with
        | error e => exact ⟨e, by simp [buildFields, h1]⟩
        | ok acc2 =>
            obtain ⟨e, he⟩ := ih acc2 hmemr hd hdef
            exact ⟨e, by simp [buildFields, h1, he]⟩

/-- C3.  Missing-field behavior, as the code actually has it.
(1) Strict: whenever the resolved class declares a field with neither a
supplied value nor a default anywhere in the ancestry, a strict build never
succeeds (it fails at that field, or earlier).
(2) Concretely, the failure for a required `int` field is the
missing-required-field error.
(3) Non-strict, the field is set to `None` only when the declared type
accepts `None` (e.g. `Optional[int]`); the build then succeeds.
(4) Non-strict, a config-typed field is auto-built from its class's
zero-argument constructor (which requires defaults for all its own fields). -/
theorem C3_missing_field_behavior :
    (∀ (env : Env) (fuelN : Nat) (path clsName : String)
      (d : List (String × Val)) (cls actual : ClassDef) (f : String) (t : Ty),
      findCls env clsName = some cls →
      getSubclassByName env cls (lookupAL d ("_name")) = .ok actual →
      (f, t) ∈ typeHintsOf env actual.name →
      lookupAL d f = none →
      lookupAL (builderDefaults env actual) f = none →
      ∃ e, cfgFromNested env true (fuelN + 1) path clsName (.vdict d) = .error e) ∧
    cfgFromNested envMain true 10 ("") "ReqInt" (.vdict []) =
      .error (.missingRequired ("n") ("ReqInt")) ∧
    cfgFromNested envMain false 10 ("") "OptCfg" (.vdict []) =
      .ok (.vinst ("OptCfg") [("_config_name", .vstr ("optcfg")), ("m", .vnone)]) ∧
    cfgFromNested envMain false 10 ("") "HasSub" (.vdict []) =
      .ok (.vinst ("HasSub")
        [("_config_name", .vstr ("hassub")),
         ("sub2", .vinst ("Leaf") [("x", .vint 1)])]) := by
  refine ⟨?_, rfl, rfl, rfl⟩
  intro env fuelN path clsName d cls actual f t hc hr hmem hd hdef
  cases hfind : d.find?
      (fun kv => !hasKey (typeHintsOf env actual.name) kv.1 &&
        !(kv.1 == "_name")) with
  | some kv =>
      exact ⟨.unknownKey (joinPath path kv.1), by
        simp [cfgFromNested, toEntries, hc, hr, hfind]⟩
  | none =>
      obtain ⟨e, he⟩ := buildFields_error_of_required env
        (fun p c v => cfgFromNested env true fuelN p c v) path actual.name d
        (builderDefaults env actual) f t (typeHintsOf env actual.name) []
        hmem hd hdef
      exact ⟨e, by simp [cfgFromNested, toEntries, hc, hr, hfind, he]⟩

/-- C3, witness. -/
theorem C3_missing_field_behavior_witness :
    ∃ e, cfgFromNested envMain true 10 ("") "ReqInt" (.vdict []) = .error e :=
  C3_missing_field_behavior.1 envMain 9 ("") "ReqInt" [] reqIntCD reqIntCD ("n")
    Ty.tint rfl rfl (by decide) rfl rfl

/-- C10.  Direct instantiation is always strict about required fields: for a
constructor call without a `_config_name` variant switch, whenever some field
of the class's own annotations has neither a default anywhere in the ancestry
nor a kwarg, `__init__` raises a missing-required-field error naming such a
field and its declared type (the first one in annotation order), before any
attribute is assigned.  The constructor has no strictness parameter. -/
theorem C10_init_requires_fields (env : Env) (cls : ClassDef)
    (kwargs : List (String × Val))
    (hnew : lookupAL kwargs ("_config_name") = none)
    (hex : ∃ ft, ft ∈ effTypes env cls.name ∧
      hasKey (gatherDefaults env cls.name) ft.1 = false ∧
      hasKey kwargs ft.1 = false) :
    ∃ g tg, (g, tg) ∈ effTypes env cls.name ∧
      hasKey (gatherDefaults env cls.name) g = false ∧
      hasKey kwargs g = false ∧
      initCfg env cls kwargs = .error (.missingInit g tg) := by
  obtain ⟨ft, hmem, hdef, hkw⟩ := hex
  have hfind : ((effTypes env cls.name).find?
      (fun kv => !hasKey (gatherDefaults env cls.name) kv.1 &&
        !hasKey kwargs kv.1)).isSome := by
    rw [List.find?_isSome]
    exact ⟨ft, hmem, by simp [hdef, hkw]⟩
  obtain ⟨kv0, hkv0⟩ := Option.isSome_iff_exists.mp hfind
  have hp := List.find?_some hkv0
  have hm0 := List.mem_of_find?_eq_some hkv0
  simp only [Bool.and_eq_true, Bool.not_eq_true'] at hp
  refine ⟨kv0.1, kv0.2, by simpa using hm0, hp.1, hp.2, ?_⟩
  simp [initCfg, hnew, hkv0]

/-- C10, witness. -/
theorem C10_init_requires_fields_witness :
    ∃ g tg, (g, tg) ∈ effTypes envMain reqIntCD.name ∧
      hasKey (gatherDefaults envMain reqIntCD.name) g = false ∧
      hasKey ([] : List (String × Val)) g = false ∧
      initCfg envMain reqIntCD [] = .error (.missingInit g tg) :=
  C10_init_requires_fields envMain reqIntCD [] rfl
    ⟨("n", Ty.tint), by decide, rfl, rfl⟩

/-- C6.  The variant lookup contract of `_get_subclass_by_name`:
an absent or empty name returns the class itself; a name whose lowercase form
equals the class's own variant name returns the class itself; otherwise the
name is looked up, lowercased, in the registry shared across the class's
category, returning the registered class, and failing with an unknown-variant
error listing all registered names of the category when absent.  Lowercasing
happens at registration (`cfgName` is the lowercased class name by
construction) and at lookup, making the comparison case-insensitive, as the
concrete lookups of `DIT`/`dit`/`MODELCONFIG` against `ModelConfig`
demonstrate. -/
theorem C6_variant_lookup :
    (∀ (env : Env) (cls : ClassDef),
      getSubclassByName env cls none = .ok cls ∧
      getSubclassByName env cls (some .vnone) = .ok cls ∧
      getSubclassByName env cls (some (.vstr (""))) = .ok cls) ∧
    (∀ (env : Env) (cls : ClassDef) (n : String), n ≠ "" →
      strLower n = cfgName cls →
      getSubclassByName env cls (some (.vstr n)) = .ok cls) ∧
    (∀ (env : Env) (cls : ClassDef) (n : String) (c : ClassDef), n ≠ "" →
      strLower n ≠ cfgName cls →
      lookupAL (registryOf env cls.name) (strLower n) = some c →
      getSubclassByName env cls (some (.vstr n)) = .ok c) ∧
    (∀ (env : Env) (cls : ClassDef) (n : String), n ≠ "" →
      strLower n ≠ cfgName cls →
      lookupAL (registryOf env cls.name) (strLower n) = none →
      getSubclassByName env cls (some (.vstr n)) =
        .error (.unknownVariant (strLower n)
          (keysAL (registryOf env cls.name)))) ∧
    getSubclassByName envMain mcCD (some (.vstr ("DIT"))) = .ok ditCD ∧
    getSubclassByName envMain mcCD (some (.vstr ("dit"))) = .ok ditCD ∧
    getSubclassByName envMain mcCD (some (.vstr ("MODELCONFIG"))) = .ok mcCD ∧
    getSubclassByName envMain mcCD (some (.vstr ("nonesuch"))) =
      .error (.unknownVariant ("nonesuch") ["dit", "unet"]) := by
  refine ⟨?_, ?_, ?_, ?_, rfl, rfl, rfl, rfl⟩
  · intro env cls; exact ⟨rfl, rfl, rfl⟩
  · intro env cls n hne heq
    simp [getSubclassByName, hne, heq]
  · intro env cls n c hne hneq hlook
    simp [getSubclassByName, hne, hneq, hlook]
  · intro env cls n hne hneq hlook
    simp [getSubclassByName, hne, hneq, hlook]

/-- C6, witness. -/
theorem C6_variant_lookup_witness :
    getSubclassByName envMain mcCD (some (.vstr ("DIT"))) = .ok ditCD :=
  C6_variant_lookup.2.2.1 envMain mcCD ("DIT") ditCD (by decide) (by decide) rfl

theorem typeSat_topt (env : Env) (t : Ty) (w : Val)
    (h : typeSat env t w = true) : typeSat env (.topt t) w = true := by
  cases w <;> simp [typeSat] at h ⊢ <;> exact h

theorem typeSat_of_isinstance (env : Env) :
    ∀ (te : Ty) (c : String) (x : Val), isCfgTy te = true → cfgOf te = some c →
      isinstanceOf env x c = true → typeSat env te x = true := by
  intro te
  induction te with
  | tint => intro c x hcf; cases hcf
  | tstr => intro c x hcf; cases hcf
  | tlist t ih => intro c x hcf; cases hcf
  | tcfg c1 =>
      intro c x _ hof hinst
      simp [cfgOf] at hof
      subst hof
      simpa [typeSat] using hinst
  | topt t ih =>
      intro c x hcf hof hinst
      exact typeSat_topt env t x (ih c x (by simpa [isCfgTy] using hcf)
        (by simpa [cfgOf] using hof) hinst)

theorem mapOpt_sound (g : Val → Option Val) (P : Val → Bool)
    (hg : ∀ v w, g v = some w → P w = true) :
    ∀ (xs ws : List Val), mapOpt g xs = some ws → ws.all P = true := by
  intro xs
  induction xs with
  | nil => intro ws h; simp [mapOpt] at h; subst h; simp
  | cons x xs ih =>
      intro ws h
      simp only [mapOpt] at h
      cases hgx : g x with
      | none => rw [hgx] at h; cases h
      | some w =>
          rw [hgx] at h
          cases hrest : mapOpt g xs with
          | none => rw [hrest] at h; cases h
          | some ws1 =>
              rw [hrest] at h
              have h2 : w :: ws1 = ws := by simpa using h
              subst h2
              simp [List.all_cons, hg x w hgx, ih ws1 hrest]

theorem validatePython_sound (env : Env) :
    ∀ (t : Ty) (v w : Val), validatePython env t v = some w →
      typeSat env t w = true := by
  intro t
  induction t with
  | tint =>
      intro v w h
      cases v <;> simp [validatePython] at h
      · subst h; rfl
      · obtain ⟨n, _, hw⟩ := h; subst hw; rfl
  | tstr =>
      intro v w h
      cases v <;> simp [validatePython] at h
      subst h; rfl
  | topt t ih =>
      intro v w h
      cases v with
      | vnone => simp [validatePython] at h; subst h; rfl
      | vint n =>
          exact typeSat_topt env t w (ih (.vint n) w (by simpa [validatePython] using h))
      | vstr s =>
          exact typeSat_topt env t w (ih (.vstr s) w (by simpa [validatePython] using h))
      | vlist xs =>
          exact typeSat_topt env t w (ih (.vlist xs) w (by simpa [validatePython] using h))
      | vdict es =>
          exact typeSat_topt env t w (ih (.vdict es) w (by simpa [validatePython] using h))
      | vinst c fs =>
          exact typeSat_topt env t w (ih (.vinst c fs) w (by simpa [validatePython] using h))
  | tlist t ih =>
      intro v w h
      cases v <;> simp [validatePython] at h
      obtain ⟨ws, hws, hw⟩ := h
      subst hw
      simpa [typeSat] using mapOpt_sound (validatePython env t) (typeSat env t) (ih) _ ws hws
  | tcfg c =>
      intro v w h
      simp [validatePython] at h
      obtain ⟨hinst, hw⟩ := h
      subst hw
      simpa [typeSat] using hinst

theorem tryValidate_sound (env : Env) (t : Ty) (v w : Val)
    (h : tryValidate env t v = some w) : typeSat env t w = true := by
  cases v with
  | vstr s =>
      simp only [tryValidate] at h
      cases hj : (jparse s).bind (validatePython env t) with
      | some w1 =>
          rw [hj] at h
          cases h
          obtain ⟨jv, _, hval⟩ := Option.bind_eq_some.mp hj
          exact validatePython_sound env t jv w hval
      | none =>
          rw [hj] at h
          exact validatePython_sound env t (.vstr s) w h
  | vnone => exact validatePython_sound env t .vnone w h
  | vint n => exact validatePython_sound env t (.vint n) w h
  | vlist xs => exact validatePython_sound env t (.vlist xs) w h
  | vdict es => exact validatePython_sound env t (.vdict es) w h
  | vinst c fs => exact validatePython_sound env t (.vinst c fs) w h

theorem adapterStep_sound (env : Env) (path : String) (t : Ty) (v w : Val)
    (h : adapterStep env true path t v = .ok w) : typeSat env t w = true := by
  simp only [adapterStep] at h
  cases htv : tryValidate env t v with
  | some w1 => rw [htv] at h; cases h; exact tryValidate_sound env t v w htv
  | none => rw [htv] at h; simp at h

theorem mapExceptIdx_sound (g : Nat → Val → Except Err Val) (P : Val → Bool)
    (hg : ∀ i v w, g i v = .ok w → P w = true) :
    ∀ (xs : List Val) (i : Nat) (ws : List Val),
      mapExceptIdx g i xs = .ok ws → ws.all P = true := by
  intro xs
  induction xs with
  | nil => intro i ws h; simp [mapExceptIdx] at h; subst h; simp
  | cons x xs ih =>
      intro i ws h
      simp only [mapExceptIdx] at h
      cases hgx : g i x with
      | error e => rw [hgx] at h; cases h
      | ok w =>
          rw [hgx] at h
          cases hrest : mapExceptIdx g (i + 1) xs with
          | error e => rw [hrest] at h; cases h
          | ok ws1 =>
              rw [hrest] at h
              have h2 : w :: ws1 = ws := by simpa [Except.map] using h
              subst h2
              simp [List.all_cons, hg i x w hgx, ih (i + 1) ws1 hrest]

theorem parseVal_sound (env : Env) :
    ∀ (t : Ty) (path : String) (v w : Val),
      parseVal env true t path v = .ok w → typeSat env t w = true := by
  intro t
  induction t with
  | tint => intro path v w h; exact adapterStep_sound env path .tint v w h
  | tstr => intro path v w h; exact adapterStep_sound env path .tstr v w h
  | topt te ih =>
      intro path v w h
      simp only [parseVal] at h
      cases hcf : isCfgTy te with
      | true => rw [hcf] at h; simp at h
      | false =>
          rw [hcf] at h
          exact adapterStep_sound env path (.topt te) v w (by simpa using h)
  | tcfg c =>
      intro path v w h
      simp only [parseVal] at h
      cases hinst : isinstanceOf env v c with
      | true => rw [hinst] at h; cases h; simpa [typeSat] using hinst
      | false => rw [hinst] at h; simp at h
  | tlist te ih =>
      intro path v w h
      simp only [parseVal] at h
      cases hcf : isCfgTy te with
      | false =>
          rw [hcf] at h
          exact adapterStep_sound env path (.tlist te) v w (by simpa using h)
      | true =>
          rw [hcf] at h
          simp only [if_true] at h
          cases hof : cfgOf te with
          | none =>
              rw [hof] at h
              cases v <;> simp at h
          | some c =>
              rw [hof] at h
              cases v <;> try (simp at h)
              case vlist xs =>
                by_cases hall : ∀ x ∈ xs, isinstanceOf env x c = true
                · rw [if_pos hall] at h
                  cases h
                  simp only [typeSat, List.all_eq_true]
                  intro x hx
                  exact typeSat_of_isinstance env te c x hcf hof (hall x hx)
                · rw [if_neg hall] at h
                  cases hmap : mapExceptIdx
                      (fun i x => parseVal env true te
                        (path ++ "[" ++ toString i ++ "]") x) 0 xs with
                  | error e => rw [hmap] at h; cases h
                  | ok ws =>
                      rw [hmap] at h
                      have h2 : Val.vlist ws = w := by simpa [Except.map] using h
                      subst h2
                      simp only [typeSat]
                      exact mapExceptIdx_sound _ (typeSat env te)
                        (fun i v w hv => ih (path ++ "[" ++ toString i ++ "]") v w hv)
                        xs 0 ws hmap

/-- C4, amended.  Per-assignment validation applies exactly to the fields in
the concrete class's nearest `__annotations__` dict: for such a field, any
successful assignment stores a value satisfying the declared type (so every
such stored value satisfies its type); fields declared only on ancestors
bypass validation entirely (see the counterexample). -/
theorem C4_validation_on_own_fields (env : Env) (clsName : String)
    (fs : List (String × Val)) (k : String) (v : Val) (t : Ty)
    (fs2 : List (String × Val))
    (ht : lookupAL (effTypes env clsName) k = some t)
    (h : setAttrI env clsName fs k v = .ok fs2) :
    ∃ w, lookupAL fs2 k = some w ∧ typeSat env t w = true := by
  simp only [setAttrI, ht] at h
  cases hp : parseVal env true t (clsName ++ "." ++ k) v with
  | error e => rw [hp] at h; simp [Except.map] at h
  | ok w =>
      rw [hp] at h
      have h2 : insertAL fs k w = fs2 := by simpa [Except.map] using h
      subst h2
      exact ⟨w, lookupAL_insertAL_self fs k w,
        parseVal_sound env t (clsName ++ "." ++ k) v w hp⟩

/-- C4, witness. -/
theorem C4_validation_on_own_fields_witness :
    ∃ w, lookupAL [(("n" : String), Val.vint 42)] ("n") = some w ∧
      typeSat envMain Ty.tint w = true :=
  C4_validation_on_own_fields envMain ("CoerceCfg") [] "n" (.vstr ("42")) Ty.tint
    [("n", Val.vint 42)] rfl rfl

/-! ### Object identity of class-level defaults

A pure embedding cannot see Python object identity, so the default-sharing
claim is settled over an explicit heap: a class body evaluates its default
expressions once, at class-creation time, so a mutable default (a list of
config instances) is one heap cell, and the class attribute holds a
reference to it.  `HVal` is an attribute value at this level of detail:
either a heap reference or an immediate value. -/

inductive HVal where
  | href : Nat → HVal
  | hval : Val → HVal

/-- Reading through a possible reference. -/
def derefH (heap : List Val) : HVal → Option Val
  | .href a => heap.get? a
  | .hval v => some v

/-- In-place mutation of the referenced object (e.g. `instance.field.append`
or `instance.field[0] = ...` on the shared list). -/
def writeH (heap : List Val) (a : Nat) (v : Val) : List Val := heap.set a v

/-- config.py `parse_value_to_type`, lines 47-49, at the level of object
identity: for a `List[C]` field whose (dereferenced) value is a list of
instances of `C`, the code executes `return value` — it hands back the very
same object it was given, allocating nothing. -/
def parseListCfgH (env : Env) (heap : List Val) (c : String) (hv : HVal) :
    Option HVal :=
  match derefH heap hv with
  | some (.vlist xs) =>
      if xs.all (fun x => isinstanceOf env x c) then some hv else none
  | _ => none

/-- from_dict.py lines 136-140 and 188-190: when a field is absent from the
supplied data, the builder's value for it is `getattr(actual_cls, name)` —
the class attribute itself — which then passes through
`parse_value_to_type` (config.py line 49, returning the same object) and is
stored by `__setattr__`.  The attribute stored on the instance is therefore
the class-attribute reference, unchanged. -/
def buildDefaultFieldH (env : Env) (heap : List Val) (c : String)
    (classAttr : HVal) : Option HVal :=
  parseListCfgH env heap c classAttr

/-- The heap at class-declaration time: one list-of-config default object. -/
def heap0 : List Val := [Val.vlist [Val.vinst ("Leaf") [("x", Val.vint 1)]]]

/-- The class attribute referencing the default list object. -/
def classAttrLayers : HVal := HVal.href 0

/-- C9, counterexample.  Two instances built independently without
overriding a list-of-config field both store the class attribute's heap
reference (`href 0`): the builder performs no copy.  Mutating the list
through the first instance (writing the referenced cell) changes what the
second instance reads, refuting the claim that the two values are
structurally independent. -/
theorem C9_defaults_shared_mutation_visible :
    buildDefaultFieldH envMain heap0 ("Leaf") classAttrLayers =
      some classAttrLayers ∧
    derefH heap0 classAttrLayers =
      some (Val.vlist [Val.vinst ("Leaf") [("x", Val.vint 1)]]) ∧
    derefH (writeH heap0 0 (Val.vlist [])) classAttrLayers =
      some (Val.vlist []) ∧
    (Val.vlist [] : Val) ≠ Val.vlist [Val.vinst ("Leaf") [("x", Val.vint 1)]] := by
  refine ⟨rfl, rfl, rfl, ?_⟩
  intro h
  simp only [Val.vlist.injEq] at h
  cases h

/-- C9, amended.  Class-level defaults are reference-shared, not copied:
the list-of-config branch of `parse_value_to_type` always returns exactly
the reference it was given, so any two instances built with the field absent
store the same reference as each other (the class attribute), and an
in-place mutation made through one instance is observed through the other. -/
theorem C9_defaults_reference_shared :
    (∀ (env : Env) (heap : List Val) (c : String) (hv r : HVal),
      parseListCfgH env heap c hv = some r → r = hv) ∧
    (∀ (env : Env) (heap : List Val) (c : String) (classAttr r1 r2 : HVal),
      buildDefaultFieldH env heap c classAttr = some r1 →
      buildDefaultFieldH env heap c classAttr = some r2 →
      r1 = r2 ∧ r1 = classAttr) := by
  constructor
  · intro env heap c hv r h
    simp only [parseListCfgH] at h
    cases hd : derefH heap hv with
    | none => rw [hd] at h; cases h
    | some v =>
        rw [hd] at h
        cases v <;> try (cases h)
        case vlist xs =>
          cases hall : xs.all (fun x => isinstanceOf env x c) with
          | true => simp [hall] at h; exact h.symm
          | false => simp [hall] at h
  · intro env heap c classAttr r1 r2 h1 h2
    have e1 : r1 = classAttr := by
      have := (by
        simp only [buildDefaultFieldH] at h1
        exact h1 : parseListCfgH env heap c classAttr = some r1)
      revert this
      intro hx
      simp only [parseListCfgH] at hx
      cases hd : derefH heap classAttr with
      | none => rw [hd] at hx; cases hx
      | some v =>
          rw [hd] at hx
          cases v <;> try (cases hx)
          case vlist xs =>
            cases hall : xs.all (fun x => isinstanceOf env x c) with
            | true => simp [hall] at hx; exact hx.symm
            | false => simp [hall] at hx
    have e2 : r2 = classAttr := by
      have hx : parseListCfgH env heap c classAttr = some r2 := h2
      simp only [parseListCfgH] at hx
      cases hd : derefH heap classAttr with
      | none => rw [hd] at hx; cases hx
      | some v =>
          rw [hd] at hx
          cases v <;> try (cases hx)
          case vlist xs =>
            cases hall : xs.all (fun x => isinstanceOf env x c) with
            | true => simp [hall] at hx; exact hx.symm
            | false => simp [hall] at hx
    exact ⟨e1.trans e2.symm, e1⟩

/-- C9, witness. -/
theorem C9_defaults_reference_shared_witness :
    HVal.href 0 = classAttrLayers ∧ HVal.href 0 = classAttrLayers :=
  C9_defaults_reference_shared.2 envMain heap0 ("Leaf") classAttrLayers
    (HVal.href 0) (HVal.href 0) rfl rfl
